import Mathlib

/-!
Verification of the dynamic `libclang` discovery, validation, loading and
binding subsystem of this repository (`src/main.rs`).  The Rust code is
shallowly embedded: paths and file names are strings, the filesystem and
process environment are explicit inputs, and the stateful thread-local slot
is explicit state passing.  Definitions come first, theorems follow.
-/

/-- Apostrophe character as a string, kept out of literal text. -/
def apos : String := String.singleton (Char.ofNat 39)

namespace build

/-- Splits a list of characters on a separator character, as Rust
`str::split(sep)` does: the empty string yields one empty component, and a
trailing separator yields a trailing empty component. -/
def splitChar (sep : Char) : List Char → List (List Char)
  | [] => [[]]
  | c :: rest =>
    if c = sep then [] :: splitChar sep rest
    else
      match splitChar sep rest with
      | [] => [[c]]
      | g :: gs => (c :: g) :: gs

/-- Numeric value of a list of decimal digit characters, most significant first. -/
def digitsVal (cs : List Char) : Nat :=
  cs.foldl (fun a c => a * 10 + (c.toNat - 48)) 0

/-- Model of Rust `str::parse::<u32>`: an optional leading plus sign followed by
one or more decimal digits, with the value required to fit in 32 bits. -/
def parse_u32 (cs : List Char) : Option Nat :=
  let ds :=
    match cs with
    | '+' :: rest => rest
    | other => other
  if ds.isEmpty then none
  else if ds.all (fun c => c.isDigit) then
    if digitsVal ds < 4294967296 then some (digitsVal ds) else none
  else none

/-- Model of `build::parse_version`: split the whole path string on dots, skip
the first two components, and parse each remaining component as a `u32`,
defaulting to `0` when parsing fails. -/
def parse_version (file : String) : List Nat :=
  ((splitChar '.' file.toList).drop 2).map (fun cs => (parse_u32 cs).getD 0)

/-- Three-way lexicographic comparison of version tuples, as Rust compares
`Vec<u32>` (a strict prefix is smaller). -/
def vcmp : List Nat → List Nat → Ordering
  | [], [] => Ordering.eq
  | [], _ :: _ => Ordering.lt
  | _ :: _, [] => Ordering.gt
  | a :: xs, b :: ys =>
    if a < b then Ordering.lt
    else if b < a then Ordering.gt
    else vcmp xs ys

/-- Boolean version-tuple order: `a` is less than or equal to `b`. -/
def vle (a b : List Nat) : Bool :=
  match vcmp a b with
  | Ordering.gt => false
  | _ => true

/-- Boolean version-tuple order: `a` is strictly less than `b`. -/
def vlt (a b : List Nat) : Bool :=
  match vcmp a b with
  | Ordering.lt => true
  | _ => false

/-- Last element of a list, modelling what Rust `Vec::pop` returns. -/
def lastOpt : List String → Option String
  | [] => none
  | [x] => some x
  | _ :: y :: ys => lastOpt (y :: ys)

/-- Stable insertion of a file into a list already sorted ascending by version
tuple: the new element is placed before the first element it compares less than
or equal to, keeping equal keys in enumeration order. -/
def insertV (x : String) : List String → List String
  | [] => [x]
  | y :: ys =>
    if vle (parse_version x) (parse_version y) then x :: y :: ys
    else y :: insertV x ys

/-- Model of `ms.sort_by_key(|m| parse_version(m))`: Rust `sort_by_key` is
a stable ascending sort, which is extensionally the stable insertion sort. -/
def sort_by_key : List String → List String
  | [] => []
  | x :: xs => insertV x (sort_by_key xs)

/-- Model of `build::contains`: `ms` is the list of files in the searched
directory matching the joined glob patterns, in enumeration order.  They are
sorted ascending by version tuple and the last one is popped. -/
def contains (ms : List String) : Option String :=
  lastOpt (sort_by_key ms)

/-- Selection the specification describes: scan the matches in enumeration
order and keep the one with the maximal version tuple, a later match winning
ties. -/
def bestMatch : List String → Option String
  | [] => none
  | x :: xs =>
    match bestMatch xs with
    | none => some x
    | some b => if vlt (parse_version b) (parse_version x) then some x else some b

/-- Order used by the sort: version tuple of the first file is not greater than
that of the second. -/
def VLe (x y : String) : Prop := vle (parse_version x) (parse_version y) = true

/-- Target operating system, selecting the `cfg!(target_os)` branches. -/
inductive OS where
  | linux
  | freebsd
  | macos
  | windows
  | other
deriving DecidableEq

/-- Build-time target configuration: operating system and pointer width. -/
structure TargetCfg where
  os : OS
  pointer_width : Nat

/-- Whether the target uses the ELF validation path,
`cfg!(any(target_os="freebsd", target_os="linux"))`. -/
def TargetCfg.elf (c : TargetCfg) : Bool :=
  match c.os with
  | OS.linux => true
  | OS.freebsd => true
  | _ => false

/-- Whether the target is Windows, `cfg!(target_os="windows")`. -/
def TargetCfg.isWindows (c : TargetCfg) : Bool :=
  match c.os with
  | OS.windows => true
  | _ => false

/-- Whether the target is macOS, `cfg!(target_os="macos")`. -/
def TargetCfg.isMacos (c : TargetCfg) : Bool :=
  match c.os with
  | OS.macos => true
  | _ => false

/-- Kind of library being searched for. -/
inductive Library where
  | Dynamic
  | Static
deriving DecidableEq

/-- Model of `build::Library::check`.  The candidate file is represented by
`file`: `none` when `File::open` fails, `some bytes` giving the full byte
contents otherwise; `read_exact` on a five-byte buffer fails when fewer than
five bytes are available.  The two IO error strings produced by
`e.to_string()` are environment-dependent and modelled by fixed messages; the
three validation messages are the literals of the source. -/
def Library.check (cfg : TargetCfg) (library : Library) (file : Option (List Nat)) :
    Except String Unit :=
  if cfg.elf then
    if library = Library.Static then Except.ok ()
    else
      match file with
      | none => Except.error ("could not open file")
      | some bytes =>
        if bytes.length < 5 then Except.error ("failed to fill whole buffer")
        else if bytes.take 4 ≠ [127, 69, 76, 70] then Except.error ("invalid ELF header")
        else if cfg.pointer_width = 32 ∧ bytes.getD 4 0 ≠ 1 then
          Except.error ("invalid ELF class (64-bit)")
        else if cfg.pointer_width = 64 ∧ bytes.getD 4 0 ≠ 2 then
          Except.error ("invalid ELF class (32-bit)")
        else Except.ok ()
  else Except.ok ()

/-- Explicit model of the process environment and filesystem seen by the
locator: `envVar` is `std::env::var`; `dirMatches dir` enumerates, in glob
enumeration order, the files under `dir` matching the fixed filename patterns
of the current search (the `contains` glob with a literal separator
requirement); `fileBytes` gives a file's contents, `none` when it cannot be
opened; `runOut cmd args` is the stdout captured by `Command::output`, `none`
when the process cannot be spawned (note `output()` succeeds even when the
command exits with a non-zero status); `globDirs pat` enumerates the
directories matching a backup glob pattern (case-insensitive, literal
separator), already filtered by `is_dir`. -/
structure World where
  envVar : String → Option String
  dirMatches : String → List String
  fileBytes : String → Option (List Nat)
  runOut : String → List String → Option String
  globDirs : String → List String

/-- Model of `build::run`: captured stdout on spawn success whatever the exit
status, `none` on spawn failure. -/
def run (w : World) (command : String) (arguments : List String) : Option String :=
  w.runOut command arguments

/-- Model of `build::run_llvm_config`: the executable is the
`LLVM_CONFIG_PATH` variable when set, the well-known name otherwise. -/
def run_llvm_config (w : World) (arguments : List String) : Except String String :=
  match run w ((w.envVar ("LLVM_CONFIG_PATH")).getD ("llvm-config")) arguments with
  | some output => Except.ok output
  | none =>
    Except.error ("couldn" ++ apos ++ "t execute `llvm-config " ++
      String.intercalate (" ") arguments ++
      "`, set the LLVM_CONFIG_PATH environment variable to a path to a valid " ++
      "`llvm-config` executable")

/-- Model of Rust `output.lines().next()`: `none` for the empty string,
otherwise the text up to the first newline, one trailing carriage return
stripped. -/
def firstLine (s : String) : Option String :=
  if s.toList.isEmpty then none
  else
    let cs := s.toList.takeWhile (fun c => c ≠ '\n')
    some (String.mk (if cs.getLast? = some '\r' then cs.dropLast else cs))

/-- Backup search directory globs for FreeBSD and Linux. -/
def SEARCH_LINUX : List String :=
  ["/usr/lib*", "/usr/lib*/*", "/usr/lib*/*/*", "/usr/local/lib*",
   "/usr/local/lib*/*", "/usr/local/lib*/*/*", "/usr/local/llvm*/lib"]

/-- Backup search directory globs for OS X. -/
def SEARCH_OSX : List String :=
  ["/usr/local/opt/llvm*/lib",
   "/Applications/Xcode.app/Contents/Developer/Toolchains/XcodeDefault.xctoolchain/usr/lib",
   "/Library/Developer/CommandLineTools/usr/lib",
   "/usr/local/opt/llvm*/lib/llvm*/lib"]

/-- Backup search directory globs for Windows. -/
def SEARCH_WINDOWS : List String :=
  ["C:\\LLVM\\lib", "C:\\Program Files*\\LLVM\\lib", "C:\\MSYS*\\MinGW*\\lib"]

/-- Backup glob list selected for the target, as in `build::find`. -/
def searchList (cfg : TargetCfg) : List String :=
  if cfg.elf then SEARCH_LINUX
  else if cfg.isMacos then SEARCH_OSX
  else if cfg.isWindows then SEARCH_WINDOWS
  else []

/-- Joins a directory and a relative component with a path separator, as
`Path::join` does for relative components in this Unix-style string model; an
empty directory yields the bare component. -/
def pathJoin (dir file : String) : String :=
  if dir.toList.isEmpty then file else dir ++ "/" ++ file

/-- Last path component of a path string. -/
def lastComponent (p : String) : String :=
  String.mk ((p.toList.reverse.takeWhile (fun c => c ≠ '/')).reverse)

/-- Parent of a path string: everything before the last separator, empty when
there is none, as `Path::parent` behaves for such relative paths. -/
def parentPath (p : String) : String :=
  String.mk ((p.toList.reverse.dropWhile (fun c => c ≠ '/')).drop 1).reverse

/-- Candidate files produced by the `search_directory!` macro for one
directory: the best `contains` match of the directory, then, on Windows when
the directory's last component is `lib`, the best match of the sibling `bin`
directory obtained from `directory.parent().unwrap().join("bin")`. -/
def search_directory (cfg : TargetCfg) (w : World) (dir : String) : List String :=
  (match contains (w.dirMatches dir) with
   | some f => [f]
   | none => []) ++
  (if cfg.isWindows = true ∧ lastComponent dir = "lib" then
    match contains (w.dirMatches (pathJoin (parentPath dir) ("bin"))) with
    | some f => [f]
    | none => []
  else [])

/-- Candidate files from the override environment variable source: when the
variable is set its value is searched as a directory. -/
def envCandidates (cfg : TargetCfg) (w : World) (env : String) : List String :=
  match w.envVar env with
  | some d => search_directory cfg w d
  | none => []

/-- Candidate files from the `llvm-config --prefix` source: the `bin` then the
`lib` subdirectory of the reported directory, each through `contains`. -/
def llvmCandidates (w : World) (d : String) : List String :=
  (match contains (w.dirMatches (pathJoin d ("bin"))) with
   | some f => [f]
   | none => []) ++
  (match contains (w.dirMatches (pathJoin d ("lib"))) with
   | some f => [f]
   | none => [])

/-- Candidate files from the backup directory globs: every directory matching
a pattern of the platform list is searched in order. -/
def backupCandidates (cfg : TargetCfg) (w : World) : List String :=
  (searchList cfg).flatMap (fun pat =>
    (w.globDirs pat).flatMap (fun dir => search_directory cfg w dir))

/-- Sequential `try_file!` over a list of candidate files: return the first
candidate accepted by `Library::check`, threading the accumulated `skipped`
entries, each formatted as in the source. -/
def tryFiles (chk : String → Except String Unit) :
    List String → List String → Option String × List String
  | [], skipped => (none, skipped)
  | c :: rest, skipped =>
    match chk c with
    | Except.ok _ => (some c, skipped)
    | Except.error m => tryFiles chk rest (skipped ++ ["(" ++ c ++ ": " ++ m ++ ")"])

/-- Rust `Vec::join` on strings. -/
def joinSep (sep : String) : List String → String
  | [] => ""
  | [x] => x
  | x :: y :: ys => x ++ sep ++ joinSep sep (y :: ys)

/-- Failure message of `build::find`, as formatted by the source. -/
def errorMessage (files : List String) (env : String) (skipped : List String) : String :=
  "couldn" ++ apos ++ "t find any of [" ++
    joinSep (", ") (files.map (fun f => apos ++ f ++ apos)) ++
    "], set the " ++ env ++
    " environment variable to a path where one of these files can be found (skipped: [" ++
    joinSep (", ") skipped ++ "])"

/-- Outcome of `build::find`: a found file, the formatted failure message, or
a Rust panic. -/
inductive FindResult where
  | found (file : String)
  | failed (message : String)
  | panicked (message : String)
deriving DecidableEq

/-- Model of `build::find`.  The search tries, in order: the directory named
by the override environment variable, the `bin` and `lib` subdirectories of
the first line of the `llvm-config --prefix` output, then the platform backup
directory globs; every candidate goes through `Library::check` via
`try_file!`, rejected candidates being recorded in `skipped`.  When
`run_llvm_config` succeeds but its output has no first line, the source calls
`unwrap` on `None` and panics. -/
def find (cfg : TargetCfg) (w : World) (library : Library) (files : List String)
    (env : String) : FindResult :=
  match tryFiles (fun f => Library.check cfg library (w.fileBytes f))
      (envCandidates cfg w env) [] with
  | (some f, _) => FindResult.found f
  | (none, sk1) =>
    match run_llvm_config w ["--prefix"] with
    | Except.ok output =>
      match firstLine output with
      | none => FindResult.panicked ("called `Option::unwrap()` on a `None` value")
      | some d =>
        match tryFiles (fun f => Library.check cfg library (w.fileBytes f))
            (llvmCandidates w d ++ backupCandidates cfg w) sk1 with
        | (some f, _) => FindResult.found f
        | (none, sk) => FindResult.failed (errorMessage files env sk)
    | Except.error _ =>
      match tryFiles (fun f => Library.check cfg library (w.fileBytes f))
          (backupCandidates cfg w) sk1 with
      | (some f, _) => FindResult.found f
      | (none, sk) => FindResult.failed (errorMessage files env sk)

/-- Full candidate list of a non-panicking search, in the order tried. -/
def candidates (cfg : TargetCfg) (w : World) (env : String) : List String :=
  envCandidates cfg w env ++
    ((match run_llvm_config w ["--prefix"] with
      | Except.ok output =>
        match firstLine output with
        | some d => llvmCandidates w d
        | none => []
      | Except.error _ => []) ++
      backupCandidates cfg w)

/-- Model of `build::find_shared_library` on Linux and FreeBSD: the pattern
list is the default `libclang.so` (DLL prefix `lib`, DLL suffix `.so`) plus
the versioned wildcard, and the override variable is `LIBCLANG_PATH`. -/
def find_shared_library (cfg : TargetCfg) (w : World) : FindResult :=
  find cfg w Library.Dynamic ["libclang.so", "libclang.so.*"] ("LIBCLANG_PATH")

end build

/-- Substring containment, stated by explicit decomposition. -/
def containsStr (s sub : String) : Prop := ∃ a b : String, s = a ++ sub ++ b

namespace support

/-- Environment of the companion `clang` executable search: the `CLANG_PATH`
variable, the assembled directory list (hint path, `llvm-config --bindir`,
`xcodebuild`, `PATH` entries), and the per-directory executable search
`support::find`. -/
structure ClangWorld where
  clangPathEnv : Option String
  searchDirs : List String
  findInDir : String → Option String

/-- Model of `support::Clang::find`, reduced to the executable path selected:
when the `CLANG_PATH` environment variable is set, that path is returned
immediately; otherwise the directory list is scanned and the first directory
with a matching executable supplies the result. -/
def Clang.find (w : ClangWorld) : Option String :=
  match w.clangPathEnv with
  | some p => some p
  | none => w.searchDirs.findSome? (fun d => w.findInDir d)

end support

/-- Model of the `SharedLibrary` the `link!` macro generates: the opaque
`libloading::Library` handle and the `Functions` table, the latter a map from
entry name to an optional raw function pointer (modelled by `Nat`). -/
structure SharedLibrary where
  library : Nat
  functions : String → Option Nat

/-- Model of `with_library`: applies `f` to the thread's library when the
thread-local slot is occupied. -/
def with_library {T : Type} (slot : Option SharedLibrary) (f : SharedLibrary → T) :
    Option T :=
  match slot with
  | some library => some (f library)
  | none => none

/-- Model of the module-level `is_loaded`: whether the calling thread's slot
is occupied. -/
def is_loaded (slot : Option SharedLibrary) : Bool :=
  slot.isSome

/-- Model of one `link!(@LOAD)`-generated loader: when the entry's `cfg`
predicate (`gate`) is satisfied the symbol is looked up in the opened image
(`sym`, the `library.get` result) and the entry's field is set to the result;
otherwise the generated loader is the no-op body and the field keeps its
`Default` value. -/
def load_function (gate : String → Bool) (sym : String → Option Nat) (name : String)
    (functions : String → Option Nat) : String → Option Nat :=
  if gate name then fun m => if m = name then sym name else functions m
  else functions

/-- Model of the loading loop of `load_manually`: every registry entry's
loader runs once, in order, over the table. -/
def load_functions (gate : String → Bool) (sym : String → Option Nat) :
    List String → (String → Option Nat) → (String → Option Nat)
  | [], functions => functions
  | name :: rest, functions =>
    load_functions gate sym rest (load_function gate sym name functions)

/-- Model of `load_manually` after a successful open: a fresh library whose
function table starts from `Functions::default()` (all absent) and is filled
by the loading loop. -/
def load_manually (gate : String → Bool) (sym : String → Option Nat)
    (registry : List String) (image : Nat) : SharedLibrary :=
  ⟨image, load_functions gate sym registry (fun _ => none)⟩

/-- Entry names for which the generated loaders perform a symbol lookup:
exactly the entries whose `cfg` predicate holds, each looked up once. -/
def performedLookups (gate : String → Bool) (registry : List String) : List String :=
  registry.filter (fun name => gate name)

/-- Model of the generated per-entry `$name::is_loaded` query. -/
def entry_is_loaded (slot : Option SharedLibrary) (name : String) : Bool :=
  (with_library slot (fun l => (l.functions name).isSome)).getD false

/-- Outcome of invoking a generated wrapper function. -/
inductive InvokeOutcome where
  | called (f : Nat)
  | panicked (message : String)
deriving DecidableEq

/-- Model of the generated wrapper function for a registry entry: the closure
given to `with_library` panics when the entry's field is absent, and the
trailing `expect` panics when no library instance is loaded on the calling
thread; otherwise the resolved pointer is called. -/
def invoke (slot : Option SharedLibrary) (name : String) : InvokeOutcome :=
  match slot with
  | none =>
    InvokeOutcome.panicked ("a `libclang` shared library is not loaded on this thread")
  | some l =>
    match l.functions name with
    | some f => InvokeOutcome.called f
    | none => InvokeOutcome.panicked ("function not loaded: " ++ name)

/-- Model of `set_library`: `mem::replace` on the calling thread's slot; the
pair is (returned previous occupant, new slot state). -/
def set_library (library : Option SharedLibrary) (slot : Option SharedLibrary) :
    Option SharedLibrary × Option SharedLibrary :=
  (slot, library)

/-- Model of `get_library`: clones the slot's occupant. -/
def get_library (slot : Option SharedLibrary) : Option SharedLibrary :=
  slot

/-- Model of `unload`: `set_library(None)`, then `Ok` exactly when something
was present; the pair is (result, new slot state). -/
def unload (slot : Option SharedLibrary) : Except String Unit × Option SharedLibrary :=
  ((if ((set_library none slot).1).isSome then Except.ok ()
    else Except.error ("a `libclang` shared library is not in use in the current thread")),
   (set_library none slot).2)

/-- Linux x86-64 target configuration used in the concrete examples. -/
def linux64 : build.TargetCfg := ⟨build.OS.linux, 64⟩

/-- Well-formed ELF header bytes for a 64-bit process. -/
def elf64 : List Nat := [127, 69, 76, 70, 2]

/-- Pattern list of `find_shared_library` on Linux. -/
def linuxFiles : List String := ["libclang.so", "libclang.so.*"]

/-- Fixture: the override directory holds one candidate whose header magic is
corrupted; the helper tool cannot be spawned; no backup directory matches. -/
def worldRejectedOnly : build.World :=
  ⟨fun v => if v = "LIBCLANG_PATH" then some "/opt/lc" else none,
   fun d => if d = "/opt/lc" then ["/opt/lc/libclang.so"] else [],
   fun f => if f = "/opt/lc/libclang.so" then some [0, 0, 0, 0, 0] else none,
   fun _ _ => none,
   fun _ => []⟩

/-- Fixture: the override directory is set but empty, while the helper tool
reports a prefix whose `bin` subdirectory holds a valid candidate. -/
def worldOverrideFallThrough : build.World :=
  ⟨fun v => if v = "LIBCLANG_PATH" then some "/o" else none,
   fun d => if d = "/p/bin" then ["/p/bin/libclang.so"] else [],
   fun f => if f = "/p/bin/libclang.so" then some elf64 else none,
   fun _ _ => some "/p\n",
   fun _ => []⟩

/-- Fixture: the override directory holds a valid candidate. -/
def worldOverrideHit : build.World :=
  ⟨fun v => if v = "LIBCLANG_PATH" then some "/o" else none,
   fun d => if d = "/o" then ["/o/libclang.so"] else [],
   fun f => if f = "/o/libclang.so" then some elf64 else none,
   fun _ _ => none,
   fun _ => []⟩

/-- Fixture: nothing is installed and the helper tool cannot be spawned. -/
def worldNoHelper : build.World :=
  ⟨fun _ => none, fun _ => [], fun _ => none, fun _ _ => none, fun _ => []⟩

/-- Fixture: the helper tool spawns but produces empty standard output, as a
failing `llvm-config` that prints its usage to standard error does. -/
def worldEmptyHelper : build.World :=
  ⟨fun _ => none, fun _ => [], fun _ => none, fun _ _ => some "", fun _ => []⟩

namespace build

theorem vcmp_cons (a b : Nat) (xs ys : List Nat) :
    vcmp (a :: xs) (b :: ys) =
      if a < b then Ordering.lt
      else if b < a then Ordering.gt
      else vcmp xs ys := rfl

theorem vcmp_self (a : List Nat) : vcmp a a = Ordering.eq := by
  induction a with
  | nil => rfl
  | cons x xs ih =>
    rw [vcmp_cons, if_neg (by omega), if_neg (by omega)]
    exact ih

theorem vcmp_swap (a b : List Nat) : vcmp a b = (vcmp b a).swap := by
  induction a generalizing b with
  | nil => cases b <;> rfl
  | cons x xs ih =>
    cases b with
    | nil => rfl
    | cons y ys =>
      rw [vcmp_cons, vcmp_cons]
      rcases Nat.lt_trichotomy x y with h | h | h
      · rw [if_pos h, if_neg (by omega), if_pos h]; rfl
      · rw [if_neg (by omega), if_neg (by omega), if_neg (by omega), if_neg (by omega)]
        exact ih ys
      · rw [if_neg (by omega), if_pos h, if_pos h]; rfl

theorem vcmp_le_trans (a b c : List Nat) (hab : vcmp a b ≠ Ordering.gt)
    (hbc : vcmp b c ≠ Ordering.gt) : vcmp a c ≠ Ordering.gt := by
  induction a generalizing b c with
  | nil => cases c <;> simp [vcmp]
  | cons x xs ih =>
    cases b with
    | nil => simp [vcmp] at hab
    | cons y ys =>
      cases c with
      | nil => simp [vcmp] at hbc
      | cons z zs =>
        rw [vcmp_cons] at hab hbc ⊢
        rcases Nat.lt_trichotomy x y with h1 | h1 | h1
        · rcases Nat.lt_trichotomy y z with h2 | h2 | h2
          · rw [if_pos (by omega)]; simp
          · rw [if_pos (by omega)]; simp
          · rw [if_neg (by omega), if_pos h2] at hbc; simp at hbc
        · subst h1
          rcases Nat.lt_trichotomy x z with h2 | h2 | h2
          · rw [if_pos h2]; simp
          · subst h2
            rw [if_neg (by omega), if_neg (by omega)] at hab hbc ⊢
            exact ih ys zs hab hbc
          · rw [if_neg (by omega), if_pos h2] at hbc; simp at hbc
        · rw [if_neg (by omega), if_pos h1] at hab; simp at hab

theorem vle_iff (a b : List Nat) : vle a b = true ↔ vcmp a b ≠ Ordering.gt := by
  unfold vle
  cases h : vcmp a b <;> simp

theorem vlt_iff (a b : List Nat) : vlt a b = true ↔ vcmp a b = Ordering.lt := by
  unfold vlt
  cases h : vcmp a b <;> simp

theorem vle_refl (a : List Nat) : vle a a = true := by
  rw [vle_iff, vcmp_self]; simp

theorem vle_total (a b : List Nat) (h : vle a b = false) : vle b a = true := by
  rw [vle_iff]
  rw [Bool.eq_false_iff, Ne, vle_iff, not_not] at h
  rw [vcmp_swap, h]
  simp [Ordering.swap]

theorem vle_trans (a b c : List Nat) (hab : vle a b = true) (hbc : vle b c = true) :
    vle a c = true := by
  rw [vle_iff] at hab hbc ⊢
  exact vcmp_le_trans a b c hab hbc

theorem vle_false_iff_vlt (a b : List Nat) : vle a b = false ↔ vlt b a = true := by
  rw [Bool.eq_false_iff, Ne, vle_iff, not_not, vlt_iff, vcmp_swap]
  cases vcmp b a <;> simp [Ordering.swap]

theorem lastOpt_cons_cons (a b : String) (l : List String) :
    lastOpt (a :: b :: l) = lastOpt (b :: l) := rfl

theorem lastOpt_cons_ne_none (y : String) (ys : List String) :
    lastOpt (y :: ys) ≠ none := by
  induction ys generalizing y with
  | nil => simp [lastOpt]
  | cons z zs ih => rw [lastOpt_cons_cons]; exact ih z

theorem lastOpt_mem (l : List String) (b : String) (h : lastOpt l = some b) : b ∈ l := by
  induction l with
  | nil => simp [lastOpt] at h
  | cons y ys ih =>
    cases ys with
    | nil =>
      simp [lastOpt] at h
      subst h
      simp
    | cons z zs =>
      rw [lastOpt_cons_cons] at h
      exact List.mem_cons_of_mem y (ih h)

theorem mem_insertV (a x : String) (l : List String) :
    a ∈ insertV x l ↔ a = x ∨ a ∈ l := by
  induction l with
  | nil => simp [insertV]
  | cons y ys ih =>
    unfold insertV
    by_cases h : vle (parse_version x) (parse_version y) = true
    · rw [if_pos h]; simp
    · rw [if_neg h]
      simp only [List.mem_cons, ih]
      tauto

theorem pairwise_insertV (x : String) (l : List String)
    (h : List.Pairwise VLe l) : List.Pairwise VLe (insertV x l) := by
  induction l with
  | nil => simp [insertV, List.Pairwise]
  | cons y ys ih =>
    rcases List.pairwise_cons.mp h with ⟨hy, hys⟩
    unfold insertV
    by_cases hle : vle (parse_version x) (parse_version y) = true
    · rw [if_pos hle]
      refine List.pairwise_cons.mpr ⟨?_, h⟩
      intro b hb
      rcases List.mem_cons.mp hb with rfl | hb
      · exact hle
      · exact vle_trans _ _ _ hle (hy b hb)
    · rw [if_neg hle]
      refine List.pairwise_cons.mpr ⟨?_, ih hys⟩
      intro b hb
      rcases (mem_insertV b x ys).mp hb with rfl | hb
      · exact vle_total _ _ (Bool.eq_false_iff.mpr hle)
      · exact hy b hb

theorem pairwise_sort_by_key (l : List String) : List.Pairwise VLe (sort_by_key l) := by
  induction l with
  | nil => simp [sort_by_key]
  | cons x xs ih => exact pairwise_insertV x (sort_by_key xs) ih

theorem pairwise_rel_last (l : List String) (b : String)
    (h : List.Pairwise VLe l) (hb : lastOpt l = some b) :
    ∀ a ∈ l, VLe a b := by
  induction l with
  | nil => simp [lastOpt] at hb
  | cons y ys ih =>
    rcases List.pairwise_cons.mp h with ⟨hy, hys⟩
    intro a ha
    cases ys with
    | nil =>
      simp [lastOpt] at hb
      subst hb
      simp at ha
      subst ha
      exact vle_refl _
    | cons z zs =>
      rw [lastOpt_cons_cons] at hb
      rcases List.mem_cons.mp ha with rfl | ha
      · exact hy b (lastOpt_mem (z :: zs) b hb)
      · exact ih hys hb a ha

theorem getLast_insertV (x : String) (l : List String) (h : List.Pairwise VLe l) :
    lastOpt (insertV x l) =
      match lastOpt l with
      | none => some x
      | some b =>
        if vle (parse_version x) (parse_version b) = true then some b else some x := by
  induction l with
  | nil => rfl
  | cons y ys ih =>
    rcases List.pairwise_cons.mp h with ⟨hy, hys⟩
    show lastOpt (if vle (parse_version x) (parse_version y) = true then x :: y :: ys
            else y :: insertV x ys) = _
    by_cases hle : vle (parse_version x) (parse_version y) = true
    · rw [if_pos hle, lastOpt_cons_cons]
      cases hlast : lastOpt (y :: ys) with
      | none => exact absurd hlast (lastOpt_cons_ne_none y ys)
      | some b =>
        have hyb : VLe y b := pairwise_rel_last (y :: ys) b h hlast y (by simp)
        have hxb : vle (parse_version x) (parse_version b) = true :=
          vle_trans _ _ _ hle hyb
        show some b = if vle (parse_version x) (parse_version b) = true then some b else some x
        rw [if_pos hxb]
    · rw [if_neg hle]
      cases ys with
      | nil =>
        show lastOpt [y, x] = _
        rw [lastOpt_cons_cons]
        show some x = if vle (parse_version x) (parse_version y) = true then some y else some x
        rw [if_neg hle]
      | cons z zs =>
        have hnn : insertV x (z :: zs) ≠ [] := by
          unfold insertV
          by_cases h2 : vle (parse_version x) (parse_version z) = true
          · rw [if_pos h2]; simp
          · rw [if_neg h2]; simp
        cases hins : insertV x (z :: zs) with
        | nil => exact absurd hins hnn
        | cons w ws =>
          rw [lastOpt_cons_cons, ← hins, ih hys, lastOpt_cons_cons]

theorem contains_eq_bestMatch (l : List String) : contains l = bestMatch l := by
  induction l with
  | nil => rfl
  | cons x xs ih =>
    show lastOpt (insertV x (sort_by_key xs)) = bestMatch (x :: xs)
    rw [getLast_insertV x (sort_by_key xs) (pairwise_sort_by_key xs)]
    rw [show lastOpt (sort_by_key xs) = bestMatch xs from ih]
    show _ = match bestMatch xs with
      | none => some x
      | some b => if vlt (parse_version b) (parse_version x) then some x else some b
    cases hb : bestMatch xs with
    | none => rfl
    | some b =>
      show (if vle (parse_version x) (parse_version b) = true then some b else some x) =
        (if vlt (parse_version b) (parse_version x) then some x else some b)
      by_cases hle : vle (parse_version x) (parse_version b) = true
      · have hv : vlt (parse_version b) (parse_version x) = false := by
          cases hv : vlt (parse_version b) (parse_version x)
          · rfl
          · rw [← vle_false_iff_vlt] at hv
            rw [hle] at hv
            cases hv
        rw [if_pos hle, hv, if_neg (by simp)]
      · have hv : vlt (parse_version b) (parse_version x) = true := by
          rw [← vle_false_iff_vlt]
          exact Bool.eq_false_iff.mpr hle
        rw [if_neg hle, hv, if_pos (by simp)]

theorem bestMatch_mem_max (l : List String) (f : String) (h : bestMatch l = some f) :
    f ∈ l ∧ ∀ m ∈ l, vle (parse_version m) (parse_version f) = true := by
  induction l generalizing f with
  | nil => simp [bestMatch] at h
  | cons x xs ih =>
    cases hb : bestMatch xs with
    | none =>
      have hx : some x = some f := by
        have hh : bestMatch (x :: xs) = some f := h
        unfold bestMatch at hh
        rw [hb] at hh
        exact hh
      injection hx with hx
      subst hx
      refine ⟨by simp, ?_⟩
      intro m hm
      rcases List.mem_cons.mp hm with rfl | hm
      · exact vle_refl _
      · cases xs with
        | nil => simp at hm
        | cons z zs =>
          exfalso
          unfold bestMatch at hb
          cases h2 : bestMatch zs with
          | none => rw [h2] at hb; exact Option.noConfusion hb
          | some c =>
            rw [h2] at hb
            have hb2 : (if vlt (parse_version c) (parse_version z) = true then some z
                else some c) = (none : Option String) := hb
            by_cases hv : vlt (parse_version c) (parse_version z) = true
            · rw [if_pos hv] at hb2; exact Option.noConfusion hb2
            · rw [if_neg hv] at hb2; exact Option.noConfusion hb2
    | some b =>
      have hif : (if vlt (parse_version b) (parse_version x) = true then some x else some b)
          = some f := by
        have hh : bestMatch (x :: xs) = some f := h
        unfold bestMatch at hh
        rw [hb] at hh
        exact hh
      rcases ih b hb with ⟨hmem, hmax⟩
      by_cases hv : vlt (parse_version b) (parse_version x) = true
      · rw [if_pos hv] at hif
        injection hif with hif
        constructor
        · rw [← hif]; exact List.mem_cons_self x xs
        · intro m hm
          rw [← hif]
          rcases List.mem_cons.mp hm with h3 | h3
          · rw [h3]; exact vle_refl _
          · have h1 := hmax m h3
            have h2 : vle (parse_version b) (parse_version x) = true := by
              rw [vle_iff]
              rw [vlt_iff] at hv
              rw [hv]
              simp
            exact vle_trans _ _ _ h1 h2
      · rw [if_neg hv] at hif
        injection hif with hif
        constructor
        · rw [← hif]; exact List.mem_cons_of_mem x hmem
        · intro m hm
          rw [← hif]
          rcases List.mem_cons.mp hm with h3 | h3
          · rw [h3]
            by_cases hvle : vle (parse_version x) (parse_version b) = true
            · exact hvle
            · have h4 := (vle_false_iff_vlt _ _).mp (Bool.eq_false_iff.mpr hvle)
              exact absurd h4 hv
          · exact hmax m h3

end build

/-- C1: within a directory, `build::contains` assigns each glob match its
version tuple via `build::parse_version`, sorts the matches ascending by tuple
(stably, so ties keep enumeration order) and pops the last: the selected match
is the highest-versioned one, ties broken by the most-recently-enumerated
match, and in particular a directory holding an unversioned candidate and a
higher-versioned candidate yields the higher-versioned one. -/
theorem claim_C1 :
    (∀ ms : List String, build.contains ms = build.bestMatch ms) ∧
    (∀ (ms : List String) (f : String), build.contains ms = some f →
      f ∈ ms ∧
        ∀ m ∈ ms, build.vle (build.parse_version m) (build.parse_version f) = true) ∧
    (∀ u v : String, build.parse_version u = [] → build.parse_version v ≠ [] →
      build.contains [u, v] = some v) := by
  refine ⟨build.contains_eq_bestMatch, ?_, ?_⟩
  · intro ms f h
    rw [build.contains_eq_bestMatch] at h
    exact build.bestMatch_mem_max ms f h
  · intro u v hu hv
    rw [build.contains_eq_bestMatch]
    cases hkv : build.parse_version v with
    | nil => exact absurd hkv hv
    | cons a bs =>
      show (match build.bestMatch [v] with
        | none => some u
        | some b =>
          if build.vlt (build.parse_version b) (build.parse_version u) then some u
          else some b) = some v
      show (if build.vlt (build.parse_version v) (build.parse_version u) then some u
          else some v) = some v
      rw [hu, hkv]
      have hlt : build.vlt (a :: bs) [] = false := by
        unfold build.vlt build.vcmp
        rfl
      rw [hlt, if_neg (by simp)]

/-- Witness for C1: a directory with the unversioned `libclang.so` and the
versioned `libclang.so.3.9` selects the versioned file. -/
theorem claim_C1_witness :
    build.contains (["libclang.so", "libclang.so.3.9"]) = some ("libclang.so.3.9") :=
  claim_C1.2.2 ("libclang.so") ("libclang.so.3.9") (by decide) (by decide)

/-- C2: on ELF platforms (Linux/FreeBSD), `Library::check` of a dynamic
candidate returns `Ok` exactly when the file can be opened, five header bytes
are available, the first four equal the ELF magic `[127, 69, 76, 70]`, and the
fifth (the architecture class) matches the process pointer width (1 for
32-bit, 2 for 64-bit); static-archive candidates and non-ELF platforms always
validate. -/
theorem claim_C2 :
    (∀ (cfg : build.TargetCfg) (file : Option (List Nat)), cfg.elf = true →
      (build.Library.check cfg build.Library.Dynamic file = Except.ok () ↔
        ∃ bytes, file = some bytes ∧ 5 ≤ bytes.length ∧
          bytes.take 4 = [127, 69, 76, 70] ∧
          (cfg.pointer_width = 32 → bytes.getD 4 0 = 1) ∧
          (cfg.pointer_width = 64 → bytes.getD 4 0 = 2))) ∧
    (∀ (cfg : build.TargetCfg) (file : Option (List Nat)),
      build.Library.check cfg build.Library.Static file = Except.ok ()) ∧
    (∀ (cfg : build.TargetCfg) (lib : build.Library) (file : Option (List Nat)),
      cfg.elf = false → build.Library.check cfg lib file = Except.ok ()) := by
  refine ⟨?_, ?_, ?_⟩
  · intro cfg file hcfg
    cases file with
    | none => simp [build.Library.check, hcfg]
    | some bytes =>
      unfold build.Library.check
      rw [hcfg, if_pos rfl, if_neg (by decide : ¬(build.Library.Dynamic = build.Library.Static))]
      show (if bytes.length < 5 then
          (Except.error ("failed to fill whole buffer") : Except String Unit)
        else if bytes.take 4 ≠ [127, 69, 76, 70] then Except.error ("invalid ELF header")
        else if cfg.pointer_width = 32 ∧ bytes.getD 4 0 ≠ 1 then
          Except.error ("invalid ELF class (64-bit)")
        else if cfg.pointer_width = 64 ∧ bytes.getD 4 0 ≠ 2 then
          Except.error ("invalid ELF class (32-bit)")
        else Except.ok ()) = Except.ok () ↔ _
      constructor
      · intro h
        split_ifs at h with h1 h2 h3 h4
        refine ⟨bytes, rfl, by omega, not_not.mp h2, ?_, ?_⟩
        · intro hpw
          by_contra hne
          exact h3 ⟨hpw, hne⟩
        · intro hpw
          by_contra hne
          exact h4 ⟨hpw, hne⟩
      · rintro ⟨bs, hbs, hlen, hmagic, h32, h64⟩
        injection hbs with hbs
        subst hbs
        split_ifs with h1 h2 h3 h4
        · exact absurd h1 (by omega)
        · exact absurd hmagic h2
        · exact absurd (h32 h3.1) h3.2
        · exact absurd (h64 h4.1) h4.2
        · rfl
  · intro cfg file
    cases h : cfg.elf with
    | false => simp [build.Library.check, h]
    | true => simp [build.Library.check, h]
  · intro cfg lib file h
    simp [build.Library.check, h]

/-- Witness for C2: on 64-bit Linux a dynamic candidate with a valid 64-bit
ELF header validates. -/
theorem claim_C2_witness :
    build.Library.check linux64 build.Library.Dynamic (some elf64) = Except.ok () :=
  (claim_C2.1 linux64 (some elf64) rfl).mpr
    ⟨elf64, rfl, by decide, by decide, by decide, by decide⟩

namespace build

theorem tryFiles_cons_eq (chk : String → Except String Unit) (c : String)
    (rest sk : List String) :
    tryFiles chk (c :: rest) sk =
      match chk c with
      | Except.ok _ => (some c, sk)
      | Except.error m => tryFiles chk rest (sk ++ ["(" ++ c ++ ": " ++ m ++ ")"]) := rfl

theorem tryFiles_append (chk : String → Except String Unit) (l1 l2 : List String) :
    ∀ sk, tryFiles chk (l1 ++ l2) sk =
      match tryFiles chk l1 sk with
      | (some f, s) => (some f, s)
      | (none, s) => tryFiles chk l2 s := by
  induction l1 with
  | nil => intro sk; rfl
  | cons c rest ih =>
    intro sk
    rw [List.cons_append, tryFiles_cons_eq, tryFiles_cons_eq]
    cases hc : chk c with
    | ok u => rfl
    | error m => exact ih (sk ++ ["(" ++ c ++ ": " ++ m ++ ")"])

theorem tryFiles_found (chk : String → Except String Unit) (l : List String) :
    ∀ (sk : List String) (f : String) (s : List String),
      tryFiles chk l sk = (some f, s) →
      ∃ pre post, l = pre ++ f :: post ∧ chk f = Except.ok () ∧
        ∀ c ∈ pre, ∃ m, chk c = Except.error m := by
  induction l with
  | nil =>
    intro sk f s h
    have h2 : ((none : Option String), sk) = (some f, s) := h
    have h3 := congrArg Prod.fst h2
    simp at h3
  | cons c rest ih =>
    intro sk f s h
    rw [tryFiles_cons_eq] at h
    cases hc : chk c with
    | ok u =>
      rw [hc] at h
      have h2 : ((some c : Option String), sk) = (some f, s) := h
      have h3 : some c = some f := congrArg Prod.fst h2
      injection h3 with h3
      subst h3
      exact ⟨[], rest, rfl, hc, by simp⟩
    | error m =>
      rw [hc] at h
      have h2 : tryFiles chk rest (sk ++ ["(" ++ c ++ ": " ++ m ++ ")"]) = (some f, s) := h
      rcases ih _ f s h2 with ⟨pre, post, hsplit, hok, hrej⟩
      refine ⟨c :: pre, post, by rw [List.cons_append, hsplit], hok, ?_⟩
      intro x hx
      rcases List.mem_cons.mp hx with h3 | h3
      · rw [h3]; exact ⟨m, hc⟩
      · exact hrej x h3

theorem tryFiles_none (chk : String → Except String Unit) (l : List String) :
    ∀ (sk s : List String), tryFiles chk l sk = (none, s) →
      (∀ e ∈ sk, e ∈ s) ∧
        ∀ c ∈ l, ∃ m, chk c = Except.error m ∧ ("(" ++ c ++ ": " ++ m ++ ")") ∈ s := by
  induction l with
  | nil =>
    intro sk s h
    have h2 : ((none : Option String), sk) = (none, s) := h
    have hs : sk = s := congrArg Prod.snd h2
    subst hs
    exact ⟨fun e he => he, by simp⟩
  | cons c rest ih =>
    intro sk s h
    rw [tryFiles_cons_eq] at h
    cases hc : chk c with
    | ok u =>
      rw [hc] at h
      have h2 : ((some c : Option String), sk) = (none, s) := h
      have h3 := congrArg Prod.fst h2
      simp at h3
    | error m =>
      rw [hc] at h
      have h2 : tryFiles chk rest (sk ++ ["(" ++ c ++ ": " ++ m ++ ")"]) = (none, s) := h
      rcases ih _ s h2 with ⟨hmono, hall⟩
      refine ⟨?_, ?_⟩
      · intro e he
        exact hmono e (List.mem_append_left _ he)
      · intro x hx
        rcases List.mem_cons.mp hx with h3 | h3
        · rw [h3]
          exact ⟨m, hc, hmono _ (List.mem_append_right _ (by simp))⟩
        · exact hall x h3

theorem find_env_found (cfg : TargetCfg) (w : World) (lib : Library)
    (files : List String) (env f : String) (s : List String)
    (h : tryFiles (fun x => Library.check cfg lib (w.fileBytes x))
      (envCandidates cfg w env) [] = (some f, s)) :
    find cfg w lib files env = FindResult.found f := by
  unfold find
  rw [h]

theorem find_env_none (cfg : TargetCfg) (w : World) (lib : Library)
    (files : List String) (env : String) (sk1 : List String)
    (h : tryFiles (fun x => Library.check cfg lib (w.fileBytes x))
      (envCandidates cfg w env) [] = (none, sk1)) :
    find cfg w lib files env =
      match run_llvm_config w ["--prefix"] with
      | Except.ok output =>
        match firstLine output with
        | none => FindResult.panicked ("called `Option::unwrap()` on a `None` value")
        | some d =>
          match tryFiles (fun x => Library.check cfg lib (w.fileBytes x))
              (llvmCandidates w d ++ backupCandidates cfg w) sk1 with
          | (some f, _) => FindResult.found f
          | (none, sk) => FindResult.failed (errorMessage files env sk)
      | Except.error _ =>
        match tryFiles (fun x => Library.check cfg lib (w.fileBytes x))
            (backupCandidates cfg w) sk1 with
        | (some f, _) => FindResult.found f
        | (none, sk) => FindResult.failed (errorMessage files env sk) := by
  unfold find
  rw [h]

theorem find_llvm_ok (cfg : TargetCfg) (w : World) (lib : Library)
    (files : List String) (env : String) (sk1 : List String) (output : String)
    (h1 : tryFiles (fun x => Library.check cfg lib (w.fileBytes x))
      (envCandidates cfg w env) [] = (none, sk1))
    (h2 : run_llvm_config w ["--prefix"] = Except.ok output) :
    find cfg w lib files env =
      match firstLine output with
      | none => FindResult.panicked ("called `Option::unwrap()` on a `None` value")
      | some d =>
        match tryFiles (fun x => Library.check cfg lib (w.fileBytes x))
            (llvmCandidates w d ++ backupCandidates cfg w) sk1 with
        | (some f, _) => FindResult.found f
        | (none, sk) => FindResult.failed (errorMessage files env sk) := by
  rw [find_env_none cfg w lib files env sk1 h1, h2]

theorem find_llvm_error (cfg : TargetCfg) (w : World) (lib : Library)
    (files : List String) (env : String) (sk1 : List String) (e : String)
    (h1 : tryFiles (fun x => Library.check cfg lib (w.fileBytes x))
      (envCandidates cfg w env) [] = (none, sk1))
    (h2 : run_llvm_config w ["--prefix"] = Except.error e) :
    find cfg w lib files env =
      match tryFiles (fun x => Library.check cfg lib (w.fileBytes x))
          (backupCandidates cfg w) sk1 with
      | (some f, _) => FindResult.found f
      | (none, sk) => FindResult.failed (errorMessage files env sk) := by
  rw [find_env_none cfg w lib files env sk1 h1, h2]

theorem find_eq (cfg : TargetCfg) (w : World) (lib : Library) (files : List String)
    (env : String)
    (hnp : ∀ output, run_llvm_config w ["--prefix"] = Except.ok output →
      firstLine output ≠ none) :
    find cfg w lib files env =
      match tryFiles (fun x => Library.check cfg lib (w.fileBytes x))
          (candidates cfg w env) [] with
      | (some f, _) => FindResult.found f
      | (none, sk) => FindResult.failed (errorMessage files env sk) := by
  cases h1 : tryFiles (fun x => Library.check cfg lib (w.fileBytes x))
      (envCandidates cfg w env) [] with
  | mk o1 s1 =>
    cases o1 with
    | some f =>
      rw [find_env_found cfg w lib files env f s1 h1]
      unfold candidates
      rw [tryFiles_append, h1]
    | none =>
      cases h2 : run_llvm_config w ["--prefix"] with
      | ok output =>
        cases h3 : firstLine output with
        | none => exact absurd h3 (hnp output h2)
        | some d =>
          have hmid : (match run_llvm_config w ["--prefix"] with
              | Except.ok output =>
                match firstLine output with
                | some d => llvmCandidates w d
                | none => []
              | Except.error _ => []) = llvmCandidates w d := by
            rw [h2]
            show (match firstLine output with
              | some d => llvmCandidates w d
              | none => []) = llvmCandidates w d
            rw [h3]
          rw [find_llvm_ok cfg w lib files env s1 output h1 h2, h3]
          unfold candidates
          rw [hmid, tryFiles_append, h1]
      | error e =>
        have hmid : (match run_llvm_config w ["--prefix"] with
            | Except.ok output =>
              match firstLine output with
              | some d => llvmCandidates w d
              | none => []
            | Except.error _ => []) = ([] : List String) := by
          rw [h2]
        rw [find_llvm_error cfg w lib files env s1 e h1 h2]
        unfold candidates
        rw [hmid, tryFiles_append, h1]
        rfl

end build

theorem containsStr_refl (s : String) : containsStr s s :=
  ⟨"", "", by rw [show ("" ++ s : String) = s from rfl]; simp⟩

theorem joinSep_contains (sep : String) (l : List String) (e : String) (he : e ∈ l) :
    containsStr (build.joinSep sep l) e := by
  induction l with
  | nil => simp at he
  | cons x xs ih =>
    cases xs with
    | nil =>
      simp at he
      rw [he]
      exact containsStr_refl x
    | cons y ys =>
      rcases List.mem_cons.mp he with h3 | h3
      · rw [h3]
        refine ⟨"", sep ++ build.joinSep sep (y :: ys), ?_⟩
        show x ++ sep ++ build.joinSep sep (y :: ys)
            = "" ++ x ++ (sep ++ build.joinSep sep (y :: ys))
        simp [String.append_assoc]
      · rcases ih h3 with ⟨p, q, hpq⟩
        refine ⟨x ++ sep ++ p, q, ?_⟩
        show x ++ sep ++ build.joinSep sep (y :: ys) = x ++ sep ++ p ++ e ++ q
        rw [hpq]
        simp [String.append_assoc]

theorem errorMessage_contains_entry (files : List String) (env : String)
    (skipped : List String) (e : String) (he : e ∈ skipped) :
    containsStr (build.errorMessage files env skipped) e := by
  rcases joinSep_contains (", ") skipped e he with ⟨p, q, hpq⟩
  refine ⟨"couldn" ++ apos ++ "t find any of [" ++
    build.joinSep (", ") (files.map (fun f => apos ++ f ++ apos)) ++
    "], set the " ++ env ++
    " environment variable to a path where one of these files can be found (skipped: [" ++ p,
    q ++ "])", ?_⟩
  unfold build.errorMessage
  rw [hpq]
  simp [String.append_assoc]

theorem errorMessage_contains_env (files : List String) (env : String)
    (skipped : List String) :
    containsStr (build.errorMessage files env skipped) env := by
  refine ⟨"couldn" ++ apos ++ "t find any of [" ++
    build.joinSep (", ") (files.map (fun f => apos ++ f ++ apos)) ++
    "], set the ",
    " environment variable to a path where one of these files can be found (skipped: [" ++
    build.joinSep (", ") skipped ++ "])", ?_⟩
  unfold build.errorMessage
  simp [String.append_assoc]

theorem errorMessage_contains_file (files : List String) (env : String)
    (skipped : List String) (f : String) (hf : f ∈ files) :
    containsStr (build.errorMessage files env skipped) (apos ++ f ++ apos) := by
  have hmem : (apos ++ f ++ apos) ∈ files.map (fun x => apos ++ x ++ apos) :=
    List.mem_map_of_mem _ hf
  rcases joinSep_contains (", ") _ _ hmem with ⟨p, q, hpq⟩
  refine ⟨"couldn" ++ apos ++ "t find any of [" ++ p,
    q ++ "], set the " ++ env ++
    " environment variable to a path where one of these files can be found (skipped: [" ++
    build.joinSep (", ") skipped ++ "])", ?_⟩
  unfold build.errorMessage
  rw [hpq]
  simp [String.append_assoc]

/-- C3: a rejected candidate never terminates the search — when `find`
succeeds it returns the first accepted candidate of the candidate sequence,
every earlier candidate having been rejected — and when no candidate is
accepted `find` returns `DiscoveryFailed` whose message contains every
rejected candidate path paired with its specific rejection reason, every
searched filename pattern (quoted), and the name of the override environment
variable.  The hypothesis excludes the run where the helper tool succeeds
with empty output, in which the source panics before finishing the search. -/
theorem claim_C3 (cfg : build.TargetCfg) (w : build.World) (lib : build.Library)
    (files : List String) (env : String)
    (hnp : ∀ output, build.run_llvm_config w ["--prefix"] = Except.ok output →
      build.firstLine output ≠ none) :
    (∀ f, build.find cfg w lib files env = build.FindResult.found f →
      ∃ pre post, build.candidates cfg w env = pre ++ f :: post ∧
        build.Library.check cfg lib (w.fileBytes f) = Except.ok () ∧
        ∀ c ∈ pre, ∃ m, build.Library.check cfg lib (w.fileBytes c) = Except.error m) ∧
    (∀ msg, build.find cfg w lib files env = build.FindResult.failed msg →
      (∀ c ∈ build.candidates cfg w env, ∃ m,
        build.Library.check cfg lib (w.fileBytes c) = Except.error m ∧
          containsStr msg ("(" ++ c ++ ": " ++ m ++ ")")) ∧
      (∀ p ∈ files, containsStr msg (apos ++ p ++ apos)) ∧
      containsStr msg env) := by
  constructor
  · intro f h
    rw [build.find_eq cfg w lib files env hnp] at h
    cases h4 : build.tryFiles (fun x => build.Library.check cfg lib (w.fileBytes x))
        (build.candidates cfg w env) [] with
    | mk o s =>
      rw [h4] at h
      cases o with
      | some g =>
        have hg : build.FindResult.found g = build.FindResult.found f := h
        injection hg with hg
        subst hg
        exact build.tryFiles_found _ _ _ _ _ h4
      | none =>
        have h5 : build.FindResult.failed (build.errorMessage files env s)
            = build.FindResult.found f := h
        exact build.FindResult.noConfusion h5
  · intro msg h
    rw [build.find_eq cfg w lib files env hnp] at h
    cases h4 : build.tryFiles (fun x => build.Library.check cfg lib (w.fileBytes x))
        (build.candidates cfg w env) [] with
    | mk o s =>
      rw [h4] at h
      cases o with
      | some g =>
        have h5 : build.FindResult.found g = build.FindResult.failed msg := h
        exact build.FindResult.noConfusion h5
      | none =>
        have h5 : build.FindResult.failed (build.errorMessage files env s)
            = build.FindResult.failed msg := h
        injection h5 with h5
        subst h5
        rcases build.tryFiles_none _ _ _ _ h4 with ⟨hmono, hall⟩
        refine ⟨?_, ?_, ?_⟩
        · intro c hc
          rcases hall c hc with ⟨m, hm, hmem⟩
          exact ⟨m, hm, errorMessage_contains_entry files env s _ hmem⟩
        · intro p hp
          exact errorMessage_contains_file files env s p hp
        · exact errorMessage_contains_env files env s

/-- Witness for C3: in a fixture whose only candidate has a corrupted ELF
magic and whose helper tool cannot be spawned, the search fails and its
message contains the rejected candidate with reason, the quoted patterns and
the variable name. -/
theorem claim_C3_witness :
    build.find linux64 worldRejectedOnly build.Library.Dynamic linuxFiles "LIBCLANG_PATH"
      = build.FindResult.failed
        (build.errorMessage linuxFiles "LIBCLANG_PATH"
          ["(/opt/lc/libclang.so: invalid ELF header)"]) ∧
    containsStr
      (build.errorMessage linuxFiles "LIBCLANG_PATH"
        ["(/opt/lc/libclang.so: invalid ELF header)"])
      ("(/opt/lc/libclang.so: invalid ELF header)") ∧
    containsStr
      (build.errorMessage linuxFiles "LIBCLANG_PATH"
        ["(/opt/lc/libclang.so: invalid ELF header)"])
      (apos ++ "libclang.so.*" ++ apos) ∧
    containsStr
      (build.errorMessage linuxFiles "LIBCLANG_PATH"
        ["(/opt/lc/libclang.so: invalid ELF header)"])
      ("LIBCLANG_PATH") := by
  have hnp : ∀ output,
      build.run_llvm_config worldRejectedOnly ["--prefix"] = Except.ok output →
      build.firstLine output ≠ none := by
    intro output h
    exact Except.noConfusion h
  have hfind : build.find linux64 worldRejectedOnly build.Library.Dynamic linuxFiles
      "LIBCLANG_PATH" = build.FindResult.failed
        (build.errorMessage linuxFiles "LIBCLANG_PATH"
          ["(/opt/lc/libclang.so: invalid ELF header)"]) := by rfl
  have h := (claim_C3 linux64 worldRejectedOnly build.Library.Dynamic linuxFiles
      "LIBCLANG_PATH" hnp).2 _ hfind
  refine ⟨hfind, ?_, ?_, h.2.2⟩
  · have hc := h.1 "/opt/lc/libclang.so" (by decide)
    rcases hc with ⟨m, hm, hcontains⟩
    have hm2 : m = "invalid ELF header" := by
      have h3 : (Except.error ("invalid ELF header") : Except String Unit)
          = Except.error m := hm
      injection h3 with h3
      exact h3.symm
    rw [hm2] at hcontains
    exact hcontains
  · exact h.2.1 "libclang.so.*" (by decide)

/-- Counterexample to C4: with `LIBCLANG_PATH` set to a directory holding no
matching candidate, `build::find` falls through to the helper-tool source and
returns a candidate from the `llvm-config --prefix` `bin` directory — the
override being set does not stop the search from consulting later sources. -/
theorem claim_C4_counterexample :
    worldOverrideFallThrough.envVar "LIBCLANG_PATH" = some "/o" ∧
    build.envCandidates linux64 worldOverrideFallThrough "LIBCLANG_PATH" = [] ∧
    build.find linux64 worldOverrideFallThrough build.Library.Dynamic linuxFiles
      "LIBCLANG_PATH" = build.FindResult.found "/p/bin/libclang.so" := by
  refine ⟨rfl, rfl, ?_⟩
  rfl

/-- C4 (amended): when `CLANG_PATH` is set, `Clang::find` returns that exact
file unconditionally, consulting no other source; when `LIBCLANG_PATH` is set
and its directory yields an accepted candidate, `build::find` returns that
candidate — a member of the override directory's candidates — without
consulting later sources; but when the override directory yields no accepted
candidate the search falls through to the remaining sources. -/
theorem claim_C4 :
    (∀ (w : support.ClangWorld) (p : String), w.clangPathEnv = some p →
      support.Clang.find w = some p) ∧
    (∀ (cfg : build.TargetCfg) (w : build.World) (lib : build.Library)
        (files : List String) (env : String) (f : String) (s : List String),
      build.tryFiles (fun x => build.Library.check cfg lib (w.fileBytes x))
          (build.envCandidates cfg w env) [] = (some f, s) →
      build.find cfg w lib files env = build.FindResult.found f ∧
        f ∈ build.envCandidates cfg w env) := by
  constructor
  · intro w p h
    unfold support.Clang.find
    rw [h]
  · intro cfg w lib files env f s h
    constructor
    · exact build.find_env_found cfg w lib files env f s h
    · rcases build.tryFiles_found _ _ _ _ _ h with ⟨pre, post, hsplit, _, _⟩
      rw [hsplit]
      simp

/-- Witness for C4 (amended): a set `CLANG_PATH` is returned as is, and an
override directory holding a valid candidate makes `build::find` return that
candidate. -/
theorem claim_C4_witness :
    support.Clang.find ⟨some "/usr/bin/clang", [], fun _ => none⟩ = some "/usr/bin/clang" ∧
    build.find linux64 worldOverrideHit build.Library.Dynamic linuxFiles "LIBCLANG_PATH"
        = build.FindResult.found "/o/libclang.so" ∧
      "/o/libclang.so" ∈ build.envCandidates linux64 worldOverrideHit "LIBCLANG_PATH" :=
  ⟨claim_C4.1 ⟨some "/usr/bin/clang", [], fun _ => none⟩ "/usr/bin/clang" rfl,
   claim_C4.2 linux64 worldOverrideHit build.Library.Dynamic linuxFiles "LIBCLANG_PATH"
     "/o/libclang.so" [] (by rfl)⟩

/-- Counterexample to C5: the helper tool spawns successfully but prints
nothing to standard output (as a helper exiting with a non-zero status after
printing only to standard error does); the source then calls `unwrap` on the
missing first line and panics instead of treating the helper as unavailable
and continuing to the backup directories. -/
theorem claim_C5_counterexample :
    build.run worldEmptyHelper "llvm-config" ["--prefix"] = some "" ∧
    build.find linux64 worldEmptyHelper build.Library.Dynamic linuxFiles "LIBCLANG_PATH"
      = build.FindResult.panicked ("called `Option::unwrap()` on a `None` value") := by
  exact ⟨rfl, rfl⟩

/-- C5 (amended): only a spawn failure of the helper tool is treated as
"helper unavailable", in which case the search continues to the backup
directories and cannot panic; when the helper spawns, its exit status is not
examined and its standard output is used regardless — an output with no first
line makes the source panic on `unwrap`, and otherwise exactly the first line
of the output is consumed as the installation-prefix directory. -/
theorem claim_C5 :
    (∀ (cfg : build.TargetCfg) (w : build.World) (lib : build.Library)
        (files : List String) (env : String),
      build.run w ((w.envVar ("LLVM_CONFIG_PATH")).getD ("llvm-config")) ["--prefix"]
          = none →
      build.find cfg w lib files env =
        (match build.tryFiles (fun x => build.Library.check cfg lib (w.fileBytes x))
            (build.envCandidates cfg w env ++ build.backupCandidates cfg w) [] with
         | (some f, _) => build.FindResult.found f
         | (none, sk) => build.FindResult.failed (build.errorMessage files env sk)) ∧
        ∀ m, build.find cfg w lib files env ≠ build.FindResult.panicked m) ∧
    (∀ (cfg : build.TargetCfg) (w : build.World) (lib : build.Library)
        (files : List String) (env : String) (sk1 : List String) (output : String),
      build.tryFiles (fun x => build.Library.check cfg lib (w.fileBytes x))
          (build.envCandidates cfg w env) [] = (none, sk1) →
      build.run_llvm_config w ["--prefix"] = Except.ok output →
      build.firstLine output = none →
      build.find cfg w lib files env =
        build.FindResult.panicked ("called `Option::unwrap()` on a `None` value")) ∧
    (∀ (cfg : build.TargetCfg) (w : build.World) (lib : build.Library)
        (files : List String) (env : String) (sk1 : List String) (output d : String),
      build.tryFiles (fun x => build.Library.check cfg lib (w.fileBytes x))
          (build.envCandidates cfg w env) [] = (none, sk1) →
      build.run_llvm_config w ["--prefix"] = Except.ok output →
      build.firstLine output = some d →
      build.find cfg w lib files env =
        (match build.tryFiles (fun x => build.Library.check cfg lib (w.fileBytes x))
            (build.llvmCandidates w d ++ build.backupCandidates cfg w) sk1 with
         | (some f, _) => build.FindResult.found f
         | (none, sk) => build.FindResult.failed (build.errorMessage files env sk))) := by
  refine ⟨?_, ?_, ?_⟩
  · intro cfg w lib files env hrun
    have herr : build.run_llvm_config w ["--prefix"] =
        Except.error ("couldn" ++ apos ++ "t execute `llvm-config " ++
          String.intercalate (" ") ["--prefix"] ++
          "`, set the LLVM_CONFIG_PATH environment variable to a path to a valid " ++
          "`llvm-config` executable") := by
      unfold build.run_llvm_config
      rw [hrun]
    have heq : build.find cfg w lib files env =
        (match build.tryFiles (fun x => build.Library.check cfg lib (w.fileBytes x))
            (build.envCandidates cfg w env ++ build.backupCandidates cfg w) [] with
         | (some f, _) => build.FindResult.found f
         | (none, sk) => build.FindResult.failed (build.errorMessage files env sk)) := by
      rw [build.tryFiles_append]
      cases h1 : build.tryFiles (fun x => build.Library.check cfg lib (w.fileBytes x))
          (build.envCandidates cfg w env) [] with
      | mk o1 s1 =>
        cases o1 with
        | some f => exact build.find_env_found cfg w lib files env f s1 h1
        | none => exact build.find_llvm_error cfg w lib files env s1 _ h1 herr
    refine ⟨heq, ?_⟩
    intro m hm
    rw [heq] at hm
    revert hm
    cases build.tryFiles (fun x => build.Library.check cfg lib (w.fileBytes x))
        (build.envCandidates cfg w env ++ build.backupCandidates cfg w) [] with
    | mk o s =>
      cases o with
      | some f => intro hm; exact build.FindResult.noConfusion hm
      | none => intro hm; exact build.FindResult.noConfusion hm
  · intro cfg w lib files env sk1 output h1 h2 h3
    rw [build.find_llvm_ok cfg w lib files env sk1 output h1 h2, h3]
  · intro cfg w lib files env sk1 output d h1 h2 h3
    rw [build.find_llvm_ok cfg w lib files env sk1 output h1 h2, h3]

/-- Witness for C5 (amended): with the helper tool unable to spawn and nothing
installed, the search ends in the failure message rather than a panic; and an
empty helper output with an empty override stage ends in the panic. -/
theorem claim_C5_witness :
    build.run worldNoHelper ((worldNoHelper.envVar ("LLVM_CONFIG_PATH")).getD
        ("llvm-config")) ["--prefix"] = none ∧
    (∀ m, build.find linux64 worldNoHelper build.Library.Dynamic linuxFiles
      "LIBCLANG_PATH" ≠ build.FindResult.panicked m) ∧
    build.find linux64 worldEmptyHelper build.Library.Dynamic linuxFiles "LIBCLANG_PATH"
      = build.FindResult.panicked ("called `Option::unwrap()` on a `None` value") :=
  ⟨rfl,
   (claim_C5.1 linux64 worldNoHelper build.Library.Dynamic linuxFiles
     "LIBCLANG_PATH" rfl).2,
   claim_C5.2.1 linux64 worldEmptyHelper build.Library.Dynamic linuxFiles
     "LIBCLANG_PATH" [] "" rfl rfl rfl⟩

theorem load_functions_gate_false (gate : String → Bool) (sym : String → Option Nat)
    (registry : List String) (name : String) (h : gate name = false) :
    ∀ t : String → Option Nat, load_functions gate sym registry t name = t name := by
  induction registry with
  | nil => intro t; rfl
  | cons n rest ih =>
    intro t
    show load_functions gate sym rest (load_function gate sym n t) name = t name
    rw [ih]
    unfold load_function
    by_cases hg : gate n = true
    · rw [if_pos hg]
      show (if name = n then sym n else t name) = t name
      by_cases hmn : name = n
      · rw [hmn] at h
        rw [hg] at h
        cases h
      · rw [if_neg hmn]
    · rw [if_neg hg]

/-- C6: a registry entry whose capability predicate is unsatisfied is never
looked up by the generated loaders and is permanently absent: after binding,
its slot in the function table is empty and the generated `$name::is_loaded`
query answers `false`, whatever symbols the opened image exports. -/
theorem claim_C6 (gate : String → Bool) (sym : String → Option Nat)
    (registry : List String) (image : Nat) (name : String)
    (hgate : gate name = false) :
    name ∉ performedLookups gate registry ∧
    (load_manually gate sym registry image).functions name = none ∧
    entry_is_loaded (some (load_manually gate sym registry image)) name = false := by
  have htable : (load_manually gate sym registry image).functions name = none :=
    load_functions_gate_false gate sym registry name hgate (fun _ => none)
  refine ⟨?_, htable, ?_⟩
  · intro hmem
    rw [performedLookups, List.mem_filter] at hmem
    rw [hgate] at hmem
    exact Bool.noConfusion hmem.2
  · show ((load_manually gate sym registry image).functions name).isSome = false
    rw [htable]
    rfl

/-- Witness for C6: one entry gated off while the image exports a symbol of
that exact name; after binding the entry is absent and reported not loaded. -/
theorem claim_C6_witness :
    (fun _ : String => some 7) "clang_createIndex" = some 7 ∧
    ("clang_createIndex" ∉ performedLookups (fun _ => false) ["clang_createIndex"] ∧
      (load_manually (fun _ => false) (fun _ => some 7)
        ["clang_createIndex"] 0).functions "clang_createIndex" = none ∧
      entry_is_loaded (some (load_manually (fun _ => false) (fun _ => some 7)
        ["clang_createIndex"] 0)) "clang_createIndex" = false) :=
  ⟨rfl, claim_C6 (fun _ => false) (fun _ => some 7) ["clang_createIndex"] 0
    "clang_createIndex" rfl⟩

/-- C7: invoking a wrapper for an entry absent from the thread's loaded table
halts with a panic naming that exact symbol; invoking it with no library
loaded on the thread halts with a panic naming the thread-state condition;
and a pointer is only ever called when it was resolved in the table — never a
null stand-in. -/
theorem claim_C7 (slot : Option SharedLibrary) (name : String) :
    (slot = none →
      invoke slot name = InvokeOutcome.panicked
        ("a `libclang` shared library is not loaded on this thread")) ∧
    (∀ l, slot = some l → l.functions name = none →
      invoke slot name = InvokeOutcome.panicked ("function not loaded: " ++ name)) ∧
    (∀ f, invoke slot name = InvokeOutcome.called f →
      ∃ l, slot = some l ∧ l.functions name = some f) := by
  refine ⟨?_, ?_, ?_⟩
  · intro h
    rw [h]
    rfl
  · intro l h hf
    rw [h]
    show (match l.functions name with
      | some f => InvokeOutcome.called f
      | none => InvokeOutcome.panicked ("function not loaded: " ++ name))
      = InvokeOutcome.panicked ("function not loaded: " ++ name)
    rw [hf]
  · intro f h
    cases slot with
    | none =>
      have h2 : InvokeOutcome.panicked
          ("a `libclang` shared library is not loaded on this thread")
          = InvokeOutcome.called f := h
      exact InvokeOutcome.noConfusion h2
    | some l =>
      have h2 : (match l.functions name with
          | some g => InvokeOutcome.called g
          | none => InvokeOutcome.panicked ("function not loaded: " ++ name))
          = InvokeOutcome.called f := h
      cases hf : l.functions name with
      | none =>
        rw [hf] at h2
        exact InvokeOutcome.noConfusion h2
      | some g =>
        rw [hf] at h2
        have h3 : InvokeOutcome.called g = InvokeOutcome.called f := h2
        injection h3 with h3
        rw [h3] at hf
        exact ⟨l, rfl, hf⟩

/-- Witness for C7: invoking with an empty slot panics with the thread-state
message, and invoking an absent entry panics naming the symbol. -/
theorem claim_C7_witness :
    invoke none "clang_createIndex" = InvokeOutcome.panicked
      ("a `libclang` shared library is not loaded on this thread") ∧
    invoke (some ⟨0, fun _ => none⟩) "clang_createIndex" = InvokeOutcome.panicked
      ("function not loaded: " ++ "clang_createIndex") :=
  ⟨(claim_C7 none "clang_createIndex").1 rfl,
   (claim_C7 (some ⟨0, fun _ => none⟩) "clang_createIndex").2.1
     ⟨0, fun _ => none⟩ rfl rfl⟩

/-- C8: `set_library x` stores `x` in the calling thread's slot and returns
exactly the previous occupant, and `get_library` immediately afterwards on the
same thread returns that same instance `x`. -/
theorem claim_C8 (x slot : Option SharedLibrary) :
    set_library x slot = (slot, x) ∧
    get_library ((set_library x slot).2) = x :=
  ⟨rfl, rfl⟩

/-- C9: `unload` clears the calling thread's slot in every case and returns
`Ok` exactly when the slot was occupied beforehand; on an already-empty slot
it returns the not-loaded error. -/
theorem claim_C9 (slot : Option SharedLibrary) :
    (unload slot).2 = none ∧
    ((unload slot).1 = Except.ok () ↔ slot.isSome = true) ∧
    (slot = none →
      (unload slot).1 = Except.error
        ("a `libclang` shared library is not in use in the current thread")) := by
  refine ⟨rfl, ?_, ?_⟩
  · cases slot with
    | none => simp [unload, set_library]
    | some l => simp [unload, set_library]
  · intro h
    rw [h]
    rfl

/-- Witness for C9: unloading an empty slot reports the not-loaded error. -/
theorem claim_C9_witness :
    (unload (none : Option SharedLibrary)).1 = Except.error
      ("a `libclang` shared library is not in use in the current thread") :=
  (claim_C9 none).2.2 rfl

/-- C10: the per-entry `$name::is_loaded` query on a thread with an empty slot
returns `false` rather than halting — exactly the answer given for a loaded
instance that lacks the symbol. -/
theorem claim_C10 (name : String) :
    entry_is_loaded none name = false ∧
    (∀ l : SharedLibrary, l.functions name = none →
      entry_is_loaded (some l) name = entry_is_loaded none name) := by
  refine ⟨rfl, ?_⟩
  intro l h
  show (l.functions name).isSome = entry_is_loaded none name
  rw [h]
  rfl

/-- Witness for C10: the query on an empty slot agrees with the query on an
instance lacking the symbol, both `false`. -/
theorem claim_C10_witness :
    entry_is_loaded (some ⟨0, fun _ => none⟩) "clang_createIndex"
      = entry_is_loaded none "clang_createIndex" :=
  (claim_C10 "clang_createIndex").2 ⟨0, fun _ => none⟩ rfl
